import Mathlib

set_option maxHeartbeats 1000000

/-!
Verification development for the subprocess orchestration core of
claude-code-collab (`src/workers/manager.ts`): the stream framer, the
event classifier, the bounded output buffer, the health monitor and the
process supervisor.  All definitions are shallow embeddings of the
TypeScript source; timestamps are naturals (milliseconds), the worker
registry (a JS `Map` iterated in insertion order) is a list, and writes
to a worker's stdin are collected explicitly.
-/

/-- Constant MAX_OUTPUT_LINES from manager.ts: capacity of the per-worker
recent-output buffer. -/
def MAX_OUTPUT_LINES : Nat := 100

/-- Constant HEALTHY_THRESHOLD from manager.ts: milliseconds without
activity past which a worker is considered degraded. -/
def HEALTHY_THRESHOLD : Nat := 30000

/-- Constant UNHEALTHY_THRESHOLD from manager.ts: milliseconds without
activity past which a worker is considered unhealthy. -/
def UNHEALTHY_THRESHOLD : Nat := 60000

/-- Constant MAX_RESTART_ATTEMPTS from manager.ts. -/
def MAX_RESTART_ATTEMPTS : Nat := 3

/-- Splitting a character sequence at every newline character, mirroring
the JavaScript expression `outputBuffer.split('\n')` in
`setupProcessHandlers`: the result has one (possibly empty) segment more
than the number of newline characters, in order. -/
def splitOnNl : List Char → List (List Char)
  | [] => [[]]
  | c :: cs =>
    if c = '\n' then [] :: splitOnNl cs
    else
      match splitOnNl cs with
      | [] => [[c]]
      | l :: ls => (c :: l) :: ls

/-- One firing of the stdout data handler in `setupProcessHandlers`:
append the chunk to the carried buffer, split on newlines, pop the last
segment back into the buffer, and emit the complete lines.  Returns
(emitted complete lines, new buffer). -/
def stdoutDataStep (buf data : List Char) : List (List Char) × List Char :=
  let lines := splitOnNl (buf ++ data)
  (lines.dropLast, lines.getLastD [])

/-- Running the stdout data handler over a whole sequence of chunks,
starting from an empty buffer, accumulating all emitted complete lines. -/
def stdoutDataRun (chunks : List (List Char)) : List (List Char) × List Char :=
  chunks.foldl
    (fun acc data =>
      let r := stdoutDataStep acc.2 data
      (acc.1 ++ r.1, r.2))
    ([], [])

/-- Both-ends whitespace trim of a character sequence, mirroring the
JavaScript `line.trim()` truthiness test in the stdout data handler. -/
def trimWS (l : List Char) : List Char :=
  ((l.dropWhile Char.isWhitespace).reverse.dropWhile Char.isWhitespace).reverse

/-- The lines the stdout data handler actually forwards to
`parseNdjsonLine`: the emitted complete lines whose trim is non-empty
(`if (line.trim())` in the source). -/
def linesToParser (chunks : List (List Char)) : List (List Char) :=
  (stdoutDataRun chunks).1.filter (fun line => !(trimWS line).isEmpty)

/-- Bounded push on the recent-output list, mirroring `addOutput` in
manager.ts: push the line, and if the length now exceeds
MAX_OUTPUT_LINES, shift off the oldest entry. -/
def pushBounded (recentOutput : List String) (line : String) : List String :=
  let r := recentOutput ++ [line]
  if MAX_OUTPUT_LINES < r.length then r.tail else r

/-- Worker lifecycle state, from WorkerState in types.ts. -/
inductive WorkerState
  | starting
  | ready
  | working
  | stopping
  | stopped
deriving DecidableEq, Repr

/-- Worker health tier, from the health field written in manager.ts. -/
inductive WorkerHealth
  | healthy
  | degraded
  | unhealthy
deriving DecidableEq, Repr

/-- One entry of a Claude message content array, from ClaudeEvent in
types.ts (the fields the manager reads). -/
structure ContentItem where
  type : String
  text : Option String
deriving DecidableEq, Repr

/-- The message field of a ClaudeEvent, from types.ts. -/
structure ClaudeMessage where
  role : String
  content : List ContentItem
deriving DecidableEq, Repr

/-- A decoded NDJSON protocol record, from ClaudeEvent in types.ts (the
fields the manager reads). -/
structure ClaudeEvent where
  type : String
  subtype : Option String
  session_id : Option String
  message : Option ClaudeMessage
  result : Option String
  duration_ms : Option Nat
deriving DecidableEq, Repr

/-- A supervised worker, from WorkerProcess in types.ts together with the
fields manager.ts maintains on it (lastHeartbeat, restartCount, health).
The child process handle itself is not modelled; writes to its stdin are
returned explicitly by the operations. -/
structure WorkerProcess where
  id : String
  handle : String
  teamName : String
  sessionId : Option String
  workingDir : String
  state : WorkerState
  recentOutput : List String
  spawnedAt : Nat
  currentTaskId : Option String
  lastHeartbeat : Nat
  restartCount : Nat
  health : WorkerHealth
deriving DecidableEq, Repr

/-- Events emitted by the WorkerManager (WorkerManagerEvents in
manager.ts). -/
inductive ManagerEvent
  | ready (workerId handle : String) (sessionId : Option String)
  | output (workerId handle : String) (event : ClaudeEvent)
  | result (workerId handle : String) (result : String) (durationMs : Option Nat)
  | error (workerId handle msg : String)
  | exited (workerId handle : String) (code : Option Int)
  | unhealthy (workerId handle reason : String)
  | restart (workerId handle : String) (restartCount : Nat)
deriving DecidableEq, Repr

/-- JavaScript truthiness of an optional string field: undefined and the
empty string are falsy. -/
def strTruthy : Option String → Bool
  | some s => s != ""
  | none => false

/-- Function updateHeartbeat from manager.ts: stamp the heartbeat and,
if the worker was unhealthy or degraded, reset it to healthy. -/
def updateHeartbeat (now : Nat) (worker : WorkerProcess) : WorkerProcess :=
  let worker := { worker with lastHeartbeat := now }
  if worker.health = .unhealthy ∨ worker.health = .degraded then
    { worker with health := .healthy }
  else worker

/-- Function addOutput from manager.ts lifted to the worker record:
push a line onto recentOutput, evicting the oldest entry past
MAX_OUTPUT_LINES. -/
def addOutput (worker : WorkerProcess) (line : String) : WorkerProcess :=
  { worker with recentOutput := pushBounded worker.recentOutput line }

/-- The text segments of an assistant record that the manager appends to
the output buffer: content entries of type text with a truthy text
field, in order. -/
def textSegments (event : ClaudeEvent) : List String :=
  match event.message with
  | none => []
  | some msg =>
    (msg.content.filter (fun c => c.type == "text" && strTruthy c.text)).map
      (fun c => c.text.getD "")

/-- Function handleClaudeEvent from manager.ts: update the heartbeat,
apply the init / assistant / result effects, and append the generic
output event.  Returns the updated worker and the emitted manager
events, in emission order. -/
def handleClaudeEvent (now : Nat) (worker0 : WorkerProcess) (event : ClaudeEvent) :
    WorkerProcess × List ManagerEvent :=
  let worker := updateHeartbeat now worker0
  let step1 : WorkerProcess × List ManagerEvent :=
    if event.type = "system" ∧ event.subtype = some "init" ∧ strTruthy event.session_id then
      let worker := { worker with sessionId := event.session_id, state := .ready }
      (worker, [ManagerEvent.ready worker.id worker.handle worker.sessionId])
    else (worker, [])
  let step2 : WorkerProcess × List ManagerEvent :=
    if event.type = "assistant" then
      let worker := { step1.1 with state := .working }
      let worker :=
        match event.message with
        | some msg =>
          msg.content.foldl
            (fun w c =>
              if c.type = "text" ∧ strTruthy c.text then addOutput w (c.text.getD "") else w)
            worker
        | none => worker
      (worker, step1.2)
    else step1
  let step3 : WorkerProcess × List ManagerEvent :=
    if event.type = "result" then
      let worker := { step2.1 with state := .ready }
      let worker :=
        if strTruthy event.result then
          addOutput worker ("[result] " ++ event.result.getD "")
        else worker
      (worker,
       step2.2 ++
         [ManagerEvent.result worker.id worker.handle (event.result.getD "") event.duration_ms])
    else step2
  (step3.1, step3.2 ++ [ManagerEvent.output step3.1.id step3.1.handle event])

/-- Spawn request, from SpawnWorkerRequest in types.ts. -/
structure SpawnWorkerRequest where
  handle : String
  teamName : Option String
  workingDir : Option String
  sessionId : Option String
  initialPrompt : Option String
deriving DecidableEq, Repr

/-- Spawn response snapshot, from SpawnWorkerResponse in types.ts. -/
structure SpawnWorkerResponse where
  id : String
  handle : String
  teamName : String
  workingDir : String
  state : WorkerState
  spawnedAt : Nat
deriving DecidableEq, Repr

/-- The WorkerManager state: the worker registry (a JS Map keyed by id,
iterated in insertion order, modelled as a list) plus the configuration
and restart history fields of manager.ts. -/
structure ManagerState where
  workers : List WorkerProcess
  maxWorkers : Nat
  defaultTeamName : String
  autoRestart : Bool
  restartHistory : List Nat
deriving DecidableEq, Repr

/-- Method getWorker from manager.ts: registry lookup by worker id. -/
def getWorker (st : ManagerState) (workerId : String) : Option WorkerProcess :=
  st.workers.find? (fun w => w.id == workerId)

/-- Method getWorkerByHandle from manager.ts: first registered worker
with the given handle, in registry iteration order. -/
def getWorkerByHandle (st : ManagerState) (handle : String) : Option WorkerProcess :=
  st.workers.find? (fun w => w.handle == handle)

/-- One hexadecimal digit, lower case, as used by JSON.stringify control
escapes. -/
def hexDigit (n : Nat) : String :=
  String.singleton (("0123456789abcdef".toList).getD n '0')

/-- JSON string escaping of one character, as performed by
JSON.stringify on the message text. -/
def jsonEscapeChar (c : Char) : String :=
  if c = '"' then "\\\""
  else if c = '\\' then "\\\\"
  else if c = '\x08' then "\\b"
  else if c = '\x09' then "\\t"
  else if c = '\x0a' then "\\n"
  else if c = '\x0c' then "\\f"
  else if c = '\x0d' then "\\r"
  else if c.toNat < 32 then "\\u00" ++ hexDigit (c.toNat / 16) ++ hexDigit (c.toNat % 16)
  else String.singleton c

/-- A JSON string literal for the given text, as produced by
JSON.stringify. -/
def jsonQuote (s : String) : String :=
  "\"" ++ String.join (s.toList.map jsonEscapeChar) ++ "\""

/-- The outbound protocol encoding built in sendToWorker:
JSON.stringify of a user message wrapping the text (braces written as
hex escapes). -/
def encodeUserMessage (message : String) : String :=
  "\x7b\"type\":\"user\",\"message\":\x7b\"role\":\"user\",\"content\":[\x7b\"type\":\"text\",\"text\":"
    ++ jsonQuote message ++ "\x7d]\x7d\x7d"

/-- Method spawnWorker from manager.ts.  The generated uuid and the
clock are passed in as freshId and now; cwd stands for process.cwd().
Failures (capacity, duplicate handle) are the synchronous throws of the
source; the registry is returned unchanged in those cases since the
source throws before any mutation.  The spawned process itself and the
delayed initial prompt are outside this state-level model. -/
def spawnWorker (st : ManagerState) (freshId : String) (now : Nat) (cwd : String)
    (request : SpawnWorkerRequest) : Except String SpawnWorkerResponse × ManagerState :=
  if st.maxWorkers ≤ st.workers.length then
    (.error ("Maximum workers (" ++ toString st.maxWorkers ++ ") reached"), st)
  else if (getWorkerByHandle st request.handle).isSome then
    (.error ("Worker with handle \x27" ++ request.handle ++ "\x27 already exists"), st)
  else
    let teamName := request.teamName.getD st.defaultTeamName
    let workingDir := request.workingDir.getD cwd
    let worker : WorkerProcess :=
      { id := freshId
        handle := request.handle
        teamName := teamName
        sessionId := request.sessionId
        workingDir := workingDir
        state := .starting
        recentOutput := []
        spawnedAt := now
        currentTaskId := none
        lastHeartbeat := now
        restartCount := 0
        health := .healthy }
    (.ok
      { id := freshId
        handle := worker.handle
        teamName := worker.teamName
        workingDir := worker.workingDir
        state := worker.state
        spawnedAt := worker.spawnedAt },
     { st with workers := st.workers ++ [worker] })

/-- Removal of a worker from the registry, as done by the process close
handler in setupProcessHandlers (workers.delete) once a worker has
stopped; a completed dismissWorker call awaits exactly this. -/
def removeWorker (st : ManagerState) (workerId : String) : ManagerState :=
  { st with workers := st.workers.filter (fun w => w.id != workerId) }

/-- Method sendToWorker from manager.ts.  Returns (result, new state,
lines written to the worker's stdin). -/
def sendToWorker (st : ManagerState) (workerId message : String) :
    Bool × ManagerState × List String :=
  match getWorker st workerId with
  | none => (false, st, [])
  | some worker =>
    if worker.state = .stopped then (false, st, [])
    else
      let jsonMessage := encodeUserMessage message
      let worker := addOutput { worker with state := .working } ("[user] " ++ message)
      (true,
       { st with workers := st.workers.map (fun w => if w.id == workerId then worker else w) },
       [jsonMessage ++ "\n"])

/-- Method sendToWorkerByHandle from manager.ts. -/
def sendToWorkerByHandle (st : ManagerState) (handle message : String) :
    Bool × ManagerState × List String :=
  match getWorkerByHandle st handle with
  | none => (false, st, [])
  | some worker => sendToWorker st worker.id message

/-- The per-worker body of checkWorkerHealth in manager.ts.  Returns the
updated worker, the emitted events, and whether a restart was triggered
(the restartWorker call being fire-and-forget in the source). -/
def checkHealthWorker (now : Nat) (autoRestart : Bool) (worker : WorkerProcess) :
    WorkerProcess × List ManagerEvent × Bool :=
  if worker.state = .stopped ∨ worker.state = .stopping then (worker, [], false)
  else
    let timeSinceHeartbeat := now - worker.lastHeartbeat
    let previousHealth := worker.health
    if UNHEALTHY_THRESHOLD < timeSinceHeartbeat then
      let worker := { worker with health := .unhealthy }
      if previousHealth ≠ .unhealthy then
        (worker,
         [ManagerEvent.unhealthy worker.id worker.handle
            ("No activity for " ++ toString ((timeSinceHeartbeat + 500) / 1000) ++ "s")],
         autoRestart && decide (worker.restartCount < MAX_RESTART_ATTEMPTS))
      else (worker, [], false)
    else if HEALTHY_THRESHOLD < timeSinceHeartbeat then
      ({ worker with health := .degraded }, [], false)
    else
      ({ worker with health := .healthy }, [], false)

/-- Method checkWorkerHealth from manager.ts: one health sweep over the
whole registry.  Returns the new state, all emitted events, and the ids
of the workers for which a restart was triggered. -/
def checkWorkerHealth (st : ManagerState) (now : Nat) :
    ManagerState × List ManagerEvent × List String :=
  let checked := st.workers.map (checkHealthWorker now st.autoRestart)
  ({ st with workers := checked.map (fun r => r.1) },
   (checked.map (fun r => r.2.1)).flatten,
   checked.filterMap (fun r => if r.2.2 then some r.1.id else none))

/-- The respawn configuration captured by restartWorker in manager.ts
before dismissing the worker. -/
def restartConfig (worker : WorkerProcess) : SpawnWorkerRequest :=
  { handle := worker.handle
    teamName := some worker.teamName
    workingDir := some worker.workingDir
    sessionId := worker.sessionId
    initialPrompt := none }

/-- Method restartWorker from manager.ts: capture the config, dismiss
the old worker (modelled by its awaited effect, removal from the
registry), record the restart timestamp, respawn under the same handle
and patch the incremented restart count onto the new worker; a respawn
failure is only logged. -/
def restartWorker (st : ManagerState) (workerId freshId : String) (now : Nat) (cwd : String) :
    ManagerState × List ManagerEvent :=
  match getWorker st workerId with
  | none => (st, [])
  | some worker =>
    let restartCount := worker.restartCount + 1
    let config := restartConfig worker
    let st := removeWorker st workerId
    let st := { st with restartHistory := st.restartHistory ++ [now] }
    match spawnWorker st freshId now cwd config with
    | (.ok response, st) =>
      (({ st with
           workers := st.workers.map
             (fun w => if w.id == response.id then { w with restartCount := restartCount } else w) }),
       [ManagerEvent.restart response.id worker.handle restartCount])
    | (.error _, st) => (st, [])

/-- Modelled from the spec (section 4.5), for comparison with the code:
the defined state-machine edges
starting→ready, ready→working, working→ready, working→stopping,
ready→stopping, stopping→stopped. -/
def specEdges : List (WorkerState × WorkerState) :=
  [(.starting, .ready), (.ready, .working), (.working, .ready),
   (.working, .stopping), (.ready, .stopping), (.stopping, .stopped)]

/-- Test fixture: a worker record with the given identity, state,
restart count, heartbeat and health, with neutral remaining fields. -/
def sampleWorker (id handle : String) (state : WorkerState) (count hb : Nat)
    (health : WorkerHealth) : WorkerProcess :=
  { id := id
    handle := handle
    teamName := "team"
    sessionId := some "sess-1"
    workingDir := "/repo"
    state := state
    recentOutput := []
    spawnedAt := 0
    currentTaskId := none
    lastHeartbeat := hb
    restartCount := count
    health := health }

/-- Test fixture: a manager state over the given registry with default
configuration (5 max workers, automatic restart enabled). -/
def sampleState (ws : List WorkerProcess) : ManagerState :=
  { workers := ws
    maxWorkers := 5
    defaultTeamName := "default"
    autoRestart := true
    restartHistory := [] }

theorem pushBounded_foldl (lines : List String) :
    ∀ buf : List String, buf.length ≤ MAX_OUTPUT_LINES →
      lines.foldl pushBounded buf =
        (buf ++ lines).drop (buf.length + lines.length - MAX_OUTPUT_LINES) := by
  induction lines with
  | nil =>
    intro buf h
    have hz : buf.length - MAX_OUTPUT_LINES = 0 := by omega
    simp [hz]
  | cons l ls ih =>
    intro buf h
    have hone : (buf ++ [l]).length = buf.length + 1 := by simp
    by_cases hc : MAX_OUTPUT_LINES < (buf ++ [l]).length
    · have hlen : buf.length = MAX_OUTPUT_LINES := by rw [hone] at hc; omega
      have hstep : pushBounded buf l = (buf ++ [l]).tail := by
        simp only [pushBounded]
        rw [if_pos hc]
      have htl : ((buf ++ [l]).tail).length = buf.length := by
        rw [List.length_tail, hone]; omega
      have hrec := ih ((buf ++ [l]).tail) (by rw [htl]; exact h)
      simp only [List.foldl_cons, hstep, hrec, htl]
      rw [← List.drop_one]
      rw [← List.drop_append_of_le_length
            (show (1 : Nat) ≤ (buf ++ [l]).length by rw [hone]; omega)]
      rw [List.drop_drop]
      have hl : (buf ++ [l]) ++ ls = buf ++ l :: ls := by simp
      have hidx : 1 + (buf.length + ls.length - MAX_OUTPUT_LINES) =
          buf.length + (l :: ls).length - MAX_OUTPUT_LINES := by
        simp only [List.length_cons]; omega
      rw [hl, hidx]
    · have hstep : pushBounded buf l = buf ++ [l] := by
        simp only [pushBounded]
        rw [if_neg hc]
      have hle : (buf ++ [l]).length ≤ MAX_OUTPUT_LINES := by omega
      have hrec := ih (buf ++ [l]) hle
      simp only [List.foldl_cons, hstep, hrec]
      have hl : (buf ++ [l]) ++ ls = buf ++ l :: ls := by simp
      have hidx : (buf ++ [l]).length + ls.length - MAX_OUTPUT_LINES =
          buf.length + (l :: ls).length - MAX_OUTPUT_LINES := by
        rw [hone]; simp only [List.length_cons]; omega
      rw [hl, hidx]

/-- C2: the per-worker output buffer is a bounded FIFO of capacity 100:
folding any sequence of pushes over the (initially empty) buffer keeps
its length at most 100, and leaves exactly the last 100 pushed lines in
insertion order (so pushing 150 lines leaves the last 100, the oldest
being evicted on overflow). -/
theorem C2_output_buffer_bounded_fifo (lines : List String) :
    lines.foldl pushBounded [] = lines.drop (lines.length - MAX_OUTPUT_LINES) ∧
    (lines.foldl pushBounded []).length ≤ MAX_OUTPUT_LINES := by
  have h := pushBounded_foldl lines [] (by simp)
  simp only [List.nil_append, List.length_nil, Nat.zero_add] at h
  refine ⟨h, ?_⟩
  rw [h]
  simp only [List.length_drop]
  omega

theorem addOutput_fields (worker : WorkerProcess) (line : String) :
    (addOutput worker line).id = worker.id ∧
    (addOutput worker line).handle = worker.handle ∧
    (addOutput worker line).state = worker.state ∧
    (addOutput worker line).sessionId = worker.sessionId ∧
    (addOutput worker line).health = worker.health ∧
    (addOutput worker line).lastHeartbeat = worker.lastHeartbeat := by
  simp [addOutput]

theorem updateHeartbeat_spec (now : Nat) (worker : WorkerProcess) :
    (updateHeartbeat now worker).health = .healthy ∧
    (updateHeartbeat now worker).lastHeartbeat = now ∧
    (updateHeartbeat now worker).id = worker.id ∧
    (updateHeartbeat now worker).handle = worker.handle ∧
    (updateHeartbeat now worker).state = worker.state ∧
    (updateHeartbeat now worker).sessionId = worker.sessionId ∧
    (updateHeartbeat now worker).recentOutput = worker.recentOutput := by
  cases hw : worker.health <;> simp [updateHeartbeat, hw]

theorem contentFold_spec (content : List ContentItem) (worker : WorkerProcess) :
    (content.foldl
        (fun w c => if c.type = "text" ∧ strTruthy c.text then addOutput w (c.text.getD "") else w)
        worker).recentOutput =
      ((content.filter (fun c => c.type == "text" && strTruthy c.text)).map
          (fun c => c.text.getD "")).foldl pushBounded worker.recentOutput ∧
    (content.foldl
        (fun w c => if c.type = "text" ∧ strTruthy c.text then addOutput w (c.text.getD "") else w)
        worker).id = worker.id ∧
    (content.foldl
        (fun w c => if c.type = "text" ∧ strTruthy c.text then addOutput w (c.text.getD "") else w)
        worker).handle = worker.handle ∧
    (content.foldl
        (fun w c => if c.type = "text" ∧ strTruthy c.text then addOutput w (c.text.getD "") else w)
        worker).state = worker.state ∧
    (content.foldl
        (fun w c => if c.type = "text" ∧ strTruthy c.text then addOutput w (c.text.getD "") else w)
        worker).sessionId = worker.sessionId ∧
    (content.foldl
        (fun w c => if c.type = "text" ∧ strTruthy c.text then addOutput w (c.text.getD "") else w)
        worker).health = worker.health ∧
    (content.foldl
        (fun w c => if c.type = "text" ∧ strTruthy c.text then addOutput w (c.text.getD "") else w)
        worker).lastHeartbeat = worker.lastHeartbeat := by
  induction content generalizing worker with
  | nil => simp
  | cons c cs ih =>
    by_cases hc : c.type = "text" ∧ strTruthy c.text
    · have hb : (c.type == "text" && strTruthy c.text) = true := by
        simp [hc.1, hc.2]
      simp only [List.foldl_cons, List.filter_cons, hb, if_pos hc, List.map_cons,
        List.foldl_cons]
      have := ih (addOutput worker (c.text.getD ""))
      simpa [addOutput] using this
    · have hb : (c.type == "text" && strTruthy c.text) = false := by
        rcases Decidable.not_and_iff_or_not.mp hc with h | h
        · simp [h]
        · simp at h
          simp [h]
      simp only [List.foldl_cons, List.filter_cons, hb, if_neg hc]
      exact ih worker

/-- Test fixture: an init protocol record carrying a session id. -/
def initEvent : ClaudeEvent :=
  { type := "system"
    subtype := some "init"
    session_id := some "sess-9"
    message := none
    result := none
    duration_ms := none }

/-- Test fixture: an assistant protocol record with one text segment. -/
def assistantEvent : ClaudeEvent :=
  { type := "assistant"
    subtype := none
    session_id := none
    message := some { role := "assistant", content := [{ type := "text", text := some "hello" }] }
    result := none
    duration_ms := none }

/-- Test fixture: a result protocol record with text and duration. -/
def resultEvent : ClaudeEvent :=
  { type := "result"
    subtype := none
    session_id := none
    message := none
    result := some "done"
    duration_ms := some 42 }

/-- C10: every successfully parsed protocol record, regardless of kind,
resets the worker's health tier to healthy as part of the heartbeat
update performed at the top of handleClaudeEvent, and stamps the
heartbeat with the current time — so health can improve between
periodic health sweeps. -/
theorem C10_heartbeat_resets_health (now : Nat) (worker : WorkerProcess) (event : ClaudeEvent) :
    (handleClaudeEvent now worker event).1.health = .healthy ∧
    (handleClaudeEvent now worker event).1.lastHeartbeat = now := by
  have hU := updateHeartbeat_spec now worker
  cases hm : event.message with
  | none =>
    simp only [handleClaudeEvent, hm]
    split_ifs <;> simp_all [addOutput]
  | some msg =>
    have hF := contentFold_spec msg.content
    simp only [handleClaudeEvent, hm]
    split_ifs <;>
      simp_all [addOutput, (hF _).2.2.2.2.2.1, (hF _).2.2.2.2.2.2]

/-- C3: an init record (type system, subtype init, carrying a session
id) sets the worker's sessionId to the record's session id, moves the
state from starting to ready and emits a ready event; an assistant
record moves the state to working and appends the record's embedded
text segments to the output buffer; a result record moves the state
back to ready and emits a result event carrying the result text and
optional duration. -/
theorem C3_event_classifier_transitions (now : Nat) (worker : WorkerProcess)
    (event : ClaudeEvent) :
    (event.type = "system" → event.subtype = some "init" → strTruthy event.session_id = true →
      worker.state = .starting →
      (handleClaudeEvent now worker event).1.sessionId = event.session_id ∧
      (handleClaudeEvent now worker event).1.state = .ready ∧
      ManagerEvent.ready worker.id worker.handle event.session_id ∈
        (handleClaudeEvent now worker event).2) ∧
    (event.type = "assistant" →
      (handleClaudeEvent now worker event).1.state = .working ∧
      (handleClaudeEvent now worker event).1.recentOutput =
        (textSegments event).foldl pushBounded worker.recentOutput) ∧
    (event.type = "result" →
      (handleClaudeEvent now worker event).1.state = .ready ∧
      ManagerEvent.result worker.id worker.handle (event.result.getD "") event.duration_ms ∈
        (handleClaudeEvent now worker event).2) := by
  have hU := updateHeartbeat_spec now worker
  refine ⟨?_, ?_, ?_⟩
  · intro h1 h2 h3 _h4
    simp only [handleClaudeEvent, h1, h2, h3]
    simp [hU.2.2.1, hU.2.2.2.1]
  · intro h1
    cases hm : event.message with
    | none =>
      simp only [handleClaudeEvent, h1, hm, textSegments]
      simp [hU.2.2.2.2.2.2]
    | some msg =>
      have hF := contentFold_spec msg.content
      simp only [handleClaudeEvent, h1, hm, textSegments]
      simp [(hF _).1, (hF _).2.2.2.1, hU.2.2.2.2.2.2]
  · intro h1
    cases hm : event.message with
    | none =>
      simp only [handleClaudeEvent, h1, hm]
      split_ifs <;> simp_all [addOutput]
    | some msg =>
      have hF := contentFold_spec msg.content
      simp only [handleClaudeEvent, h1, hm]
      split_ifs <;>
        simp_all [addOutput, (hF _).2.1, (hF _).2.2.1]

/-- Witness for C3: the three transitions evaluated on concrete records
and workers. -/
theorem C3_event_classifier_witness :
    (handleClaudeEvent 7 (sampleWorker "w1" "alpha" .starting 0 0 .healthy) initEvent).1.sessionId
        = some "sess-9" ∧
    (handleClaudeEvent 7 (sampleWorker "w1" "alpha" .starting 0 0 .healthy) initEvent).1.state
        = .ready ∧
    (handleClaudeEvent 7 (sampleWorker "w1" "alpha" .ready 0 0 .healthy) assistantEvent).1.state
        = .working ∧
    (handleClaudeEvent 7 (sampleWorker "w1" "alpha" .working 0 0 .healthy) resultEvent).1.state
        = .ready := by
  refine ⟨?_, ?_, ?_, ?_⟩
  · exact ((C3_event_classifier_transitions 7 _ initEvent).1 rfl rfl (by decide) rfl).1
  · exact ((C3_event_classifier_transitions 7 _ initEvent).1 rfl rfl (by decide) rfl).2.1
  · exact ((C3_event_classifier_transitions 7 _ assistantEvent).2.1 rfl).1
  · exact ((C3_event_classifier_transitions 7 _ resultEvent).2.2 rfl).1

/-- Test fixture: a one-slot manager state (maxWorkers 1). -/
def tinyState (ws : List WorkerProcess) : ManagerState :=
  { workers := ws
    maxWorkers := 1
    defaultTeamName := "default"
    autoRestart := true
    restartHistory := [] }

/-- Test fixture: a plain spawn request for handle alpha. -/
def alphaRequest : SpawnWorkerRequest :=
  { handle := "alpha"
    teamName := none
    workingDir := none
    sessionId := none
    initialPrompt := none }

/-- C4: spawn fails synchronously at capacity or on a duplicate handle
and leaves the registry unchanged in either case; otherwise it succeeds
and appends one worker; and once the conflicting worker has been
dismissed and removed, a spawn with the same handle succeeds (given a
free slot and the at-most-one-live-worker-per-handle invariant). -/
theorem C4_spawn_failures (st : ManagerState) (freshId : String) (now : Nat) (cwd : String)
    (request : SpawnWorkerRequest) :
    (st.maxWorkers ≤ st.workers.length →
      (spawnWorker st freshId now cwd request).2 = st ∧
      ∃ e, (spawnWorker st freshId now cwd request).1 = .error e) ∧
    ((getWorkerByHandle st request.handle).isSome →
      (spawnWorker st freshId now cwd request).2 = st ∧
      ∃ e, (spawnWorker st freshId now cwd request).1 = .error e) ∧
    (st.workers.length < st.maxWorkers → getWorkerByHandle st request.handle = none →
      ∃ resp, (spawnWorker st freshId now cwd request).1 = .ok resp ∧
        (spawnWorker st freshId now cwd request).2.workers.length = st.workers.length + 1) ∧
    (∀ w, getWorkerByHandle st request.handle = some w →
      (st.workers.map (fun x => x.handle)).Nodup →
      (removeWorker st w.id).workers.length < st.maxWorkers →
      ∃ resp, (spawnWorker (removeWorker st w.id) freshId now cwd request).1 = .ok resp) := by
  refine ⟨?_, ?_, ?_, ?_⟩
  · intro h; simp [spawnWorker, h]
  · intro h
    simp only [spawnWorker]
    split_ifs <;> simp_all
  · intro h1 h2
    have hcap : ¬ st.maxWorkers ≤ st.workers.length := by omega
    simp [spawnWorker, hcap, h2]
  · intro w hw hnd hcap
    rw [getWorkerByHandle] at hw
    have hw_mem : w ∈ st.workers := List.mem_of_find?_eq_some hw
    have hw_p := List.find?_some hw
    simp only [beq_iff_eq] at hw_p
    have hnone : getWorkerByHandle (removeWorker st w.id) request.handle = none := by
      rw [getWorkerByHandle]
      apply List.find?_eq_none.mpr
      intro x hx hbeq
      simp only [removeWorker, List.mem_filter] at hx
      obtain ⟨hx_mem, hx_id⟩ := hx
      have hxw : x = w := by
        apply List.inj_on_of_nodup_map hnd hx_mem hw_mem
        rw [beq_iff_eq] at hbeq
        rw [hbeq, hw_p]
      rw [hxw] at hx_id
      simp at hx_id
    have hcap' : ¬ (removeWorker st w.id).maxWorkers ≤ (removeWorker st w.id).workers.length := by
      simp only [removeWorker] at *
      omega
    simp [spawnWorker, hcap', hnone]

/-- Witness for C4: capacity failure, duplicate-handle failure with the
registry unchanged, and success after removal, on concrete states. -/
theorem C4_spawn_failures_witness :
    (spawnWorker (tinyState [sampleWorker "w1" "beta" .ready 0 0 .healthy]) "f1" 0 "/" alphaRequest).2
        = tinyState [sampleWorker "w1" "beta" .ready 0 0 .healthy] ∧
    (spawnWorker (sampleState [sampleWorker "w1" "alpha" .ready 0 0 .healthy]) "f1" 0 "/" alphaRequest).2
        = sampleState [sampleWorker "w1" "alpha" .ready 0 0 .healthy] ∧
    (∃ e, (spawnWorker (sampleState [sampleWorker "w1" "alpha" .ready 0 0 .healthy]) "f1" 0 "/"
        alphaRequest).1 = .error e) ∧
    (∃ resp, (spawnWorker (removeWorker (sampleState [sampleWorker "w1" "alpha" .ready 0 0 .healthy])
        "w1") "f1" 0 "/" alphaRequest).1 = .ok resp) := by
  refine ⟨?_, ?_, ?_, ?_⟩
  · exact ((C4_spawn_failures (tinyState [sampleWorker "w1" "beta" .ready 0 0 .healthy])
      "f1" 0 "/" alphaRequest).1 (by decide)).1
  · exact ((C4_spawn_failures (sampleState [sampleWorker "w1" "alpha" .ready 0 0 .healthy])
      "f1" 0 "/" alphaRequest).2.1 (by decide)).1
  · exact ((C4_spawn_failures (sampleState [sampleWorker "w1" "alpha" .ready 0 0 .healthy])
      "f1" 0 "/" alphaRequest).2.1 (by decide)).2
  · exact (C4_spawn_failures (sampleState [sampleWorker "w1" "alpha" .ready 0 0 .healthy])
      "f1" 0 "/" alphaRequest).2.2.2 (sampleWorker "w1" "alpha" .ready 0 0 .healthy)
      (by decide) (by decide) (by decide)

/-- C5: send to an unknown id, or to a registered worker in state
stopped, returns false and has no side effect at all (no registry
mutation, no buffer append, no stdin write); send to any other
registered worker returns true, writes exactly the outbound-protocol
encoding of the message followed by a newline to the worker's stdin,
marks the worker working and appends the user line to its output
buffer; send by an unknown handle likewise returns false with no side
effects. -/
theorem C5_send_semantics (st : ManagerState) (workerId handle message : String) :
    (getWorker st workerId = none → sendToWorker st workerId message = (false, st, [])) ∧
    (∀ w, getWorker st workerId = some w → w.state = .stopped →
      sendToWorker st workerId message = (false, st, [])) ∧
    (∀ w, getWorker st workerId = some w → w.state ≠ .stopped →
      sendToWorker st workerId message =
        (true,
         { st with workers :=
            st.workers.map (fun x =>
              if x.id == workerId then addOutput { w with state := .working } ("[user] " ++ message)
              else x) },
         [encodeUserMessage message ++ "\n"])) ∧
    (getWorkerByHandle st handle = none →
      sendToWorkerByHandle st handle message = (false, st, [])) := by
  refine ⟨?_, ?_, ?_, ?_⟩
  · intro h; simp [sendToWorker, h]
  · intro w hw hs; simp [sendToWorker, hw, hs]
  · intro w hw hs; simp [sendToWorker, hw, hs]
  · intro h; simp [sendToWorkerByHandle, h]

/-- Witness for C5: the three failure cases and the success case on a
concrete two-worker registry. -/
theorem C5_send_semantics_witness :
    sendToWorker (sampleState [sampleWorker "w1" "alpha" .ready 0 0 .healthy,
        sampleWorker "w2" "beta" .stopped 0 0 .healthy]) "zzz" "hi"
      = (false, sampleState [sampleWorker "w1" "alpha" .ready 0 0 .healthy,
          sampleWorker "w2" "beta" .stopped 0 0 .healthy], []) ∧
    sendToWorker (sampleState [sampleWorker "w1" "alpha" .ready 0 0 .healthy,
        sampleWorker "w2" "beta" .stopped 0 0 .healthy]) "w2" "hi"
      = (false, sampleState [sampleWorker "w1" "alpha" .ready 0 0 .healthy,
          sampleWorker "w2" "beta" .stopped 0 0 .healthy], []) ∧
    (sendToWorker (sampleState [sampleWorker "w1" "alpha" .ready 0 0 .healthy,
        sampleWorker "w2" "beta" .stopped 0 0 .healthy]) "w1" "hi").1 = true ∧
    sendToWorkerByHandle (sampleState [sampleWorker "w1" "alpha" .ready 0 0 .healthy,
        sampleWorker "w2" "beta" .stopped 0 0 .healthy]) "gamma" "hi"
      = (false, sampleState [sampleWorker "w1" "alpha" .ready 0 0 .healthy,
          sampleWorker "w2" "beta" .stopped 0 0 .healthy], []) := by
  refine ⟨?_, ?_, ?_, ?_⟩
  · exact (C5_send_semantics (sampleState [sampleWorker "w1" "alpha" .ready 0 0 .healthy,
      sampleWorker "w2" "beta" .stopped 0 0 .healthy]) "zzz" "gamma" "hi").1 (by decide)
  · exact (C5_send_semantics (sampleState [sampleWorker "w1" "alpha" .ready 0 0 .healthy,
      sampleWorker "w2" "beta" .stopped 0 0 .healthy]) "w2" "gamma" "hi").2.1
      (sampleWorker "w2" "beta" .stopped 0 0 .healthy) (by decide) (by decide)
  · exact congrArg Prod.fst ((C5_send_semantics (sampleState
      [sampleWorker "w1" "alpha" .ready 0 0 .healthy,
       sampleWorker "w2" "beta" .stopped 0 0 .healthy]) "w1" "gamma" "hi").2.2.1
      (sampleWorker "w1" "alpha" .ready 0 0 .healthy) (by decide) (by decide))
  · exact (C5_send_semantics (sampleState [sampleWorker "w1" "alpha" .ready 0 0 .healthy,
      sampleWorker "w2" "beta" .stopped 0 0 .healthy]) "w1" "gamma" "hi").2.2.2 (by decide)

/-- C6: in a health sweep, for a worker not stopping or stopped: idle
time beyond 60s makes the tier unhealthy, beyond 30s but at most 60s
degraded, and otherwise healthy; the unhealthy event is emitted exactly
on a transition into unhealthy, and the restart trigger fires exactly
on such a transition when automatic restart is enabled and the restart
count is below 3; a worker that stays unhealthy across consecutive
sweeps without first leaving the tier re-emits nothing and re-triggers
nothing. -/
theorem C6_health_sweep (now : Nat) (ar : Bool) (worker : WorkerProcess)
    (h : ¬ (worker.state = .stopped ∨ worker.state = .stopping)) :
    ((UNHEALTHY_THRESHOLD < now - worker.lastHeartbeat →
        (checkHealthWorker now ar worker).1.health = .unhealthy) ∧
     (HEALTHY_THRESHOLD < now - worker.lastHeartbeat →
        now - worker.lastHeartbeat ≤ UNHEALTHY_THRESHOLD →
        (checkHealthWorker now ar worker).1.health = .degraded) ∧
     (now - worker.lastHeartbeat ≤ HEALTHY_THRESHOLD →
        (checkHealthWorker now ar worker).1.health = .healthy)) ∧
    ((checkHealthWorker now ar worker).2.1 ≠ [] ↔
      (UNHEALTHY_THRESHOLD < now - worker.lastHeartbeat ∧ worker.health ≠ .unhealthy)) ∧
    ((checkHealthWorker now ar worker).2.2 = true ↔
      (UNHEALTHY_THRESHOLD < now - worker.lastHeartbeat ∧ worker.health ≠ .unhealthy ∧
       ar = true ∧ worker.restartCount < MAX_RESTART_ATTEMPTS)) ∧
    (∀ now2 : Nat, UNHEALTHY_THRESHOLD < now - worker.lastHeartbeat →
      (checkHealthWorker now2 ar (checkHealthWorker now ar worker).1).2.1 = [] ∧
      (checkHealthWorker now2 ar (checkHealthWorker now ar worker).1).2.2 = false) := by
  have hTH : HEALTHY_THRESHOLD ≤ UNHEALTHY_THRESHOLD := by decide
  refine ⟨⟨?_, ?_, ?_⟩, ?_, ?_, ?_⟩
  · intro h1
    simp only [checkHealthWorker, if_neg h]
    split_ifs <;> simp_all
  · intro h1 h2
    simp only [checkHealthWorker, if_neg h]
    split_ifs <;> simp_all <;> omega
  · intro h1
    simp only [checkHealthWorker, if_neg h]
    split_ifs <;> simp_all <;> omega
  · simp only [checkHealthWorker, if_neg h]
    split_ifs <;> simp_all
  · simp only [checkHealthWorker, if_neg h]
    split_ifs <;> simp_all
  · intro now2 h1
    have hstate : (checkHealthWorker now ar worker).1.state = worker.state ∧
        (checkHealthWorker now ar worker).1.health = .unhealthy := by
      simp only [checkHealthWorker, if_neg h]
      split_ifs <;> simp_all
    rcases hstate with ⟨hst, hh⟩
    revert hst hh
    generalize (checkHealthWorker now ar worker).1 = r
    intro hst hh
    have h' : ¬ (r.state = .stopped ∨ r.state = .stopping) := by rw [hst]; exact h
    simp only [checkHealthWorker, if_neg h']
    split_ifs <;> simp_all

/-- Witness for C6: the three tiers, the restart trigger and the
absence of re-emission on a second sweep, on a concrete ready worker
with heartbeat 0. -/
theorem C6_health_sweep_witness :
    (checkHealthWorker 100000 true (sampleWorker "w1" "alpha" .ready 0 0 .healthy)).1.health
      = .unhealthy ∧
    (checkHealthWorker 45000 true (sampleWorker "w1" "alpha" .ready 0 0 .healthy)).1.health
      = .degraded ∧
    (checkHealthWorker 10000 true (sampleWorker "w1" "alpha" .ready 0 0 .healthy)).1.health
      = .healthy ∧
    (checkHealthWorker 100000 true (sampleWorker "w1" "alpha" .ready 0 0 .healthy)).2.2 = true ∧
    (checkHealthWorker 200000 true
        (checkHealthWorker 100000 true (sampleWorker "w1" "alpha" .ready 0 0 .healthy)).1).2.1
      = [] ∧
    (checkHealthWorker 200000 true
        (checkHealthWorker 100000 true (sampleWorker "w1" "alpha" .ready 0 0 .healthy)).1).2.2
      = false := by
  refine ⟨?_, ?_, ?_, ?_, ?_, ?_⟩
  · exact (C6_health_sweep 100000 true (sampleWorker "w1" "alpha" .ready 0 0 .healthy)
      (by decide)).1.1 (by decide)
  · exact (C6_health_sweep 45000 true (sampleWorker "w1" "alpha" .ready 0 0 .healthy)
      (by decide)).1.2.1 (by decide) (by decide)
  · exact (C6_health_sweep 10000 true (sampleWorker "w1" "alpha" .ready 0 0 .healthy)
      (by decide)).1.2.2 (by decide)
  · exact (C6_health_sweep 100000 true (sampleWorker "w1" "alpha" .ready 0 0 .healthy)
      (by decide)).2.2.1.mpr ⟨by decide, by decide, rfl, by decide⟩
  · exact ((C6_health_sweep 100000 true (sampleWorker "w1" "alpha" .ready 0 0 .healthy)
      (by decide)).2.2.2 200000 (by decide)).1
  · exact ((C6_health_sweep 100000 true (sampleWorker "w1" "alpha" .ready 0 0 .healthy)
      (by decide)).2.2.2 200000 (by decide)).2

theorem spawnWorker_workers_sub (st : ManagerState) (freshId : String) (now : Nat) (cwd : String)
    (request : SpawnWorkerRequest) :
    ∀ x ∈ (spawnWorker st freshId now cwd request).2.workers,
      x ∈ st.workers ∨ x.restartCount = 0 := by
  intro x hx
  simp only [spawnWorker] at hx
  split_ifs at hx
  · exact .inl hx
  · exact .inl hx
  · simp only [List.mem_append, List.mem_singleton] at hx
    rcases hx with hx | rfl
    · exact .inl hx
    · right; rfl

/-- Counterexample for C7: a single call to the public restart
operation on a worker whose restart count already equals 3 produces a
worker with restart count 4, exceeding the configured maximum —
restartWorker itself performs no cap check (only the health sweep call
site does). -/
theorem C7_restart_cap_counterexample :
    ((restartWorker (sampleState [sampleWorker "w1" "alpha" .ready 3 0 .healthy])
        "w1" "w9" 5 "/").1.workers.map (fun w => w.restartCount)) = [4] ∧
    MAX_RESTART_ATTEMPTS < 4 := by decide

/-- C7 amended: the automatic restart path is capped: the health sweep
triggers a restart only when the worker's restart count is below 3, a
count at or above 3 never triggers (unhealthy detection then only
emits events), and a restart of a worker whose count is below 3
preserves the registry-wide bound restartCount ≤ 3; a direct call to
the restart operation itself is not capped. -/
theorem C7_restart_cap_amended (now : Nat) (ar : Bool) (worker : WorkerProcess) :
    ((checkHealthWorker now ar worker).2.2 = true →
      worker.restartCount < MAX_RESTART_ATTEMPTS) ∧
    (MAX_RESTART_ATTEMPTS ≤ worker.restartCount →
      (checkHealthWorker now ar worker).2.2 = false) ∧
    (∀ (st : ManagerState) (workerId freshId cwd : String) (w : WorkerProcess),
      getWorker st workerId = some w →
      (∀ x ∈ st.workers, x.restartCount ≤ MAX_RESTART_ATTEMPTS) →
      w.restartCount < MAX_RESTART_ATTEMPTS →
      ∀ x ∈ (restartWorker st workerId freshId now cwd).1.workers,
        x.restartCount ≤ MAX_RESTART_ATTEMPTS) := by
  refine ⟨?_, ?_, ?_⟩
  · simp only [checkHealthWorker]
    split_ifs <;> simp_all
  · intro hge
    simp only [checkHealthWorker]
    split_ifs <;> simp_all
  · intro st workerId freshId cwd w hfound hinv hlt x hx
    simp only [restartWorker, hfound] at hx
    split at hx
    case _ response st2 heq =>
      simp only [List.mem_map] at hx
      obtain ⟨y, hy, hxy⟩ := hx
      have hsub := spawnWorker_workers_sub
        { removeWorker st workerId with
            restartHistory := (removeWorker st workerId).restartHistory ++ [now] }
        freshId now cwd (restartConfig w) y
      rw [heq] at hsub
      have hy' := hsub hy
      have hycount : y.restartCount ≤ MAX_RESTART_ATTEMPTS := by
        rcases hy' with hmem | hzero
        · simp only [removeWorker, List.mem_filter] at hmem
          exact hinv y hmem.1
        · omega
      rw [← hxy]
      by_cases hid : (y.id == response.id) = true
      · simp only [if_pos hid]
        show w.restartCount + 1 ≤ MAX_RESTART_ATTEMPTS
        omega
      · simp only [if_neg hid]
        exact hycount
    case _ e st2 heq =>
      have hsub := spawnWorker_workers_sub
        { removeWorker st workerId with
            restartHistory := (removeWorker st workerId).restartHistory ++ [now] }
        freshId now cwd (restartConfig w) x
      rw [heq] at hsub
      have hx' := hsub hx
      rcases hx' with hmem | hzero
      · simp only [removeWorker, List.mem_filter] at hmem
        exact hinv x hmem.1
      · omega

/-- Witness for C7 amended: the sweep trigger implies a count below 3,
a count of 3 yields no trigger, and the worker produced by restarting a
count-2 worker still satisfies the bound. -/
theorem C7_restart_cap_witness :
    (sampleWorker "w1" "alpha" .ready 0 0 .healthy).restartCount < MAX_RESTART_ATTEMPTS ∧
    (checkHealthWorker 100000 true (sampleWorker "w1" "alpha" .ready 3 0 .healthy)).2.2
      = false ∧
    ({ sampleWorker "w9" "alpha" .starting 3 5 .healthy with spawnedAt := 5 } :
        WorkerProcess).restartCount ≤ MAX_RESTART_ATTEMPTS := by
  refine ⟨?_, ?_, ?_⟩
  · exact (C7_restart_cap_amended 100000 true
      (sampleWorker "w1" "alpha" .ready 0 0 .healthy)).1 (by decide)
  · exact (C7_restart_cap_amended 100000 true
      (sampleWorker "w1" "alpha" .ready 3 0 .healthy)).2.1 (by decide)
  · exact (C7_restart_cap_amended 5 true
      (sampleWorker "w1" "alpha" .ready 2 0 .healthy)).2.2
      (sampleState [sampleWorker "w1" "alpha" .ready 2 0 .healthy]) "w1" "w9" "/"
      (sampleWorker "w1" "alpha" .ready 2 0 .healthy) (by decide) (by decide) (by decide)
      ({ sampleWorker "w9" "alpha" .starting 3 5 .healthy with spawnedAt := 5 }) (by decide)

theorem spawnWorker_workers_state (st : ManagerState) (freshId : String) (now : Nat)
    (cwd : String) (request : SpawnWorkerRequest) :
    ∀ x ∈ (spawnWorker st freshId now cwd request).2.workers,
      x ∈ st.workers ∨ x.state = .starting := by
  intro x hx
  simp only [spawnWorker] at hx
  split_ifs at hx
  · exact .inl hx
  · exact .inl hx
  · simp only [List.mem_append, List.mem_singleton] at hx
    rcases hx with hx | rfl
    · exact .inl hx
    · right; rfl

/-- Counterexample for C8: send on a worker still in state starting
succeeds and moves it straight to working, a transition outside the
defined edge set of the spec (starting→working is not a defined edge). -/
theorem C8_state_edges_counterexample :
    (sendToWorker (sampleState [sampleWorker "w1" "alpha" .starting 0 0 .healthy]) "w1" "go").1
      = true ∧
    ((sendToWorker (sampleState [sampleWorker "w1" "alpha" .starting 0 0 .healthy])
        "w1" "go").2.1.workers.map (fun w => w.state)) = [WorkerState.working] ∧
    (sampleWorker "w1" "alpha" .starting 0 0 .healthy).state = .starting ∧
    (WorkerState.starting, WorkerState.working) ∉ specEdges := by decide

/-- C8 amended: the state field obeys a weaker discipline than the
defined edge set: event classification only ever leaves the state
unchanged or moves it to ready or working (from any live state,
including starting and stopping); a successful send requires a
non-stopped worker and moves it to working (also from starting or
stopping, which violates the defined edges); spawn only ever creates
workers in starting, and no event or send ever moves a worker into
starting or stopped. -/
theorem C8_state_edges_amended :
    (∀ (now : Nat) (worker : WorkerProcess) (event : ClaudeEvent),
      (handleClaudeEvent now worker event).1.state = worker.state ∨
      (handleClaudeEvent now worker event).1.state = .ready ∨
      (handleClaudeEvent now worker event).1.state = .working) ∧
    (∀ (st : ManagerState) (workerId message : String) (w : WorkerProcess),
      getWorker st workerId = some w →
      (sendToWorker st workerId message).1 = true →
      w.state ≠ .stopped ∧
      ∀ x ∈ (sendToWorker st workerId message).2.1.workers,
        x ∈ st.workers ∨ x.state = .working) ∧
    (∀ (st : ManagerState) (freshId : String) (now : Nat) (cwd : String)
        (request : SpawnWorkerRequest),
      ∀ x ∈ (spawnWorker st freshId now cwd request).2.workers,
        x ∈ st.workers ∨ x.state = .starting) := by
  refine ⟨?_, ?_, ?_⟩
  · intro now worker event
    have hU := updateHeartbeat_spec now worker
    by_cases hr : event.type = "result"
    · right; left
      cases hm : event.message with
      | none =>
        simp only [handleClaudeEvent, hr, hm]
        split_ifs <;> simp_all [addOutput]
      | some msg =>
        have hF := contentFold_spec msg.content
        simp only [handleClaudeEvent, hr, hm]
        split_ifs <;> simp_all [addOutput, (hF _).2.2.2.1]
    · by_cases ha : event.type = "assistant"
      · right; right
        cases hm : event.message with
        | none =>
          simp only [handleClaudeEvent, ha, hm]
          split_ifs <;> simp_all [addOutput]
        | some msg =>
          have hF := contentFold_spec msg.content
          simp only [handleClaudeEvent, ha, hm]
          split_ifs <;> simp_all [addOutput, (hF _).2.2.2.1]
      · by_cases hi : event.type = "system" ∧ event.subtype = some "init" ∧
            strTruthy event.session_id
        · right; left
          simp only [handleClaudeEvent, if_pos hi]
          simp [ha, hr, hU.2.2.2.2.1]
        · left
          simp only [handleClaudeEvent, if_neg hi]
          simp [ha, hr, hU.2.2.2.2.1]
  · intro st workerId message w hw htrue
    by_cases hs : w.state = .stopped
    · rw [sendToWorker, hw] at htrue
      simp [hs] at htrue
    · refine ⟨hs, ?_⟩
      intro x hx
      rw [sendToWorker, hw] at hx
      simp only [if_neg hs] at hx
      simp only [List.mem_map] at hx
      obtain ⟨y, hy, hxy⟩ := hx
      by_cases hid : (y.id == workerId) = true
      · right
        rw [← hxy]
        simp [hid, addOutput]
      · left
        rw [← hxy]
        simp only [if_neg hid]
        exact hy
  · exact spawnWorker_workers_state

/-- Witness for C8 amended: the send clause evaluated on a concrete
ready worker, with a concrete member of the post-send registry, and the
spawn clause on a concrete full registry. -/
theorem C8_state_edges_witness :
    (sampleWorker "w1" "alpha" .ready 0 0 .healthy).state ≠ .stopped ∧
    (({ sampleWorker "w1" "alpha" .working 0 0 .healthy with
          recentOutput := ["[user] hi"] } : WorkerProcess) ∈
        (sampleState [sampleWorker "w1" "alpha" .ready 0 0 .healthy]).workers ∨
      ({ sampleWorker "w1" "alpha" .working 0 0 .healthy with
          recentOutput := ["[user] hi"] } : WorkerProcess).state = .working) ∧
    ((sampleWorker "w1" "beta" .ready 0 0 .healthy) ∈
        (tinyState [sampleWorker "w1" "beta" .ready 0 0 .healthy]).workers ∨
      (sampleWorker "w1" "beta" .ready 0 0 .healthy).state = .starting) := by
  refine ⟨?_, ?_, ?_⟩
  · exact (C8_state_edges_amended.2.1
      (sampleState [sampleWorker "w1" "alpha" .ready 0 0 .healthy]) "w1" "hi"
      (sampleWorker "w1" "alpha" .ready 0 0 .healthy) (by decide) (by decide)).1
  · exact (C8_state_edges_amended.2.1
      (sampleState [sampleWorker "w1" "alpha" .ready 0 0 .healthy]) "w1" "hi"
      (sampleWorker "w1" "alpha" .ready 0 0 .healthy) (by decide) (by decide)).2
      ({ sampleWorker "w1" "alpha" .working 0 0 .healthy with recentOutput := ["[user] hi"] })
      (by decide)
  · exact C8_state_edges_amended.2.2
      (tinyState [sampleWorker "w1" "beta" .ready 0 0 .healthy]) "f1" 0 "/" alphaRequest
      (sampleWorker "w1" "beta" .ready 0 0 .healthy) (by decide)

theorem spawnWorker_ok (st : ManagerState) (freshId : String) (now : Nat) (cwd : String)
    (request : SpawnWorkerRequest)
    (hcap : st.workers.length < st.maxWorkers)
    (hh : getWorkerByHandle st request.handle = none) :
    spawnWorker st freshId now cwd request =
      (.ok { id := freshId, handle := request.handle,
             teamName := request.teamName.getD st.defaultTeamName,
             workingDir := request.workingDir.getD cwd,
             state := .starting, spawnedAt := now },
       { st with workers := st.workers ++
           [{ id := freshId, handle := request.handle,
              teamName := request.teamName.getD st.defaultTeamName,
              sessionId := request.sessionId,
              workingDir := request.workingDir.getD cwd,
              state := .starting, recentOutput := [], spawnedAt := now,
              currentTaskId := none, lastHeartbeat := now, restartCount := 0,
              health := .healthy }] }) := by
  have h1 : ¬ st.maxWorkers ≤ st.workers.length := by omega
  simp [spawnWorker, h1, hh]

theorem restartWorker_single_attempt (st2 : ManagerState) (workerId freshId : String)
    (now : Nat) (cwd : String) :
    (restartWorker st2 workerId freshId now cwd).2.length ≤ 1 := by
  rw [restartWorker]
  cases hg : getWorker st2 workerId with
  | none => simp
  | some w2 =>
    simp only []
    split <;> simp

/-- C9: restarting a worker (given the per-handle uniqueness invariant,
a free capacity slot after removal and a genuinely fresh id) produces a
new worker under the fresh id that preserves the old worker's handle,
team name, working directory and session token, carries restart count
old + 1, and emits exactly one restart event with the new id and the
updated count; a restart call makes at most one respawn attempt, and a
failed respawn produces no events and no retry within the call. -/
theorem C9_restart_continuity (st : ManagerState) (workerId freshId : String) (now : Nat)
    (cwd : String) (w : WorkerProcess)
    (hfound : getWorker st workerId = some w)
    (hnd : (st.workers.map (fun x => x.handle)).Nodup)
    (hcap : (removeWorker st workerId).workers.length < st.maxWorkers)
    (hfresh : ∀ x ∈ st.workers, x.id ≠ freshId) :
    (restartWorker st workerId freshId now cwd).2
      = [ManagerEvent.restart freshId w.handle (w.restartCount + 1)] ∧
    freshId ≠ w.id ∧
    getWorker (restartWorker st workerId freshId now cwd).1 freshId = some
      { id := freshId, handle := w.handle, teamName := w.teamName,
        sessionId := w.sessionId, workingDir := w.workingDir,
        state := .starting, recentOutput := [], spawnedAt := now,
        currentTaskId := none, lastHeartbeat := now,
        restartCount := w.restartCount + 1, health := .healthy } ∧
    (∀ st2 : ManagerState, (restartWorker st2 workerId freshId now cwd).2.length ≤ 1) ∧
    (∀ (st2 : ManagerState) (w2 : WorkerProcess) (e : String) (stE : ManagerState),
      getWorker st2 workerId = some w2 →
      spawnWorker
          { removeWorker st2 workerId with
              restartHistory := (removeWorker st2 workerId).restartHistory ++ [now] }
          freshId now cwd (restartConfig w2) = (.error e, stE) →
      restartWorker st2 workerId freshId now cwd = (stE, [])) := by
  have hfound' := hfound
  rw [getWorker] at hfound'
  have hw_mem : w ∈ st.workers := List.mem_of_find?_eq_some hfound'
  have hw_id : w.id = workerId := by
    have := List.find?_some hfound'
    simpa [beq_iff_eq] using this
  have hnone : getWorkerByHandle
      { removeWorker st workerId with
          restartHistory := (removeWorker st workerId).restartHistory ++ [now] }
      (restartConfig w).handle = none := by
    rw [getWorkerByHandle]
    apply List.find?_eq_none.mpr
    intro x hx hbeq
    simp only [removeWorker, List.mem_filter] at hx
    obtain ⟨hx_mem, hx_id⟩ := hx
    have hxw : x = w := by
      apply List.inj_on_of_nodup_map hnd hx_mem hw_mem
      simp only [restartConfig, beq_iff_eq] at hbeq
      exact hbeq
    rw [hxw, hw_id] at hx_id
    simp at hx_id
  have hcap' :
      ({ removeWorker st workerId with
          restartHistory := (removeWorker st workerId).restartHistory ++ [now] } :
        ManagerState).workers.length <
      ({ removeWorker st workerId with
          restartHistory := (removeWorker st workerId).restartHistory ++ [now] } :
        ManagerState).maxWorkers := hcap
  have hok := spawnWorker_ok
    { removeWorker st workerId with
        restartHistory := (removeWorker st workerId).restartHistory ++ [now] }
    freshId now cwd (restartConfig w) hcap' hnone
  refine ⟨?_, (hfresh w hw_mem).symm, ?_, ?_, ?_⟩
  · simp only [restartWorker, hfound, hok]
  · simp only [restartWorker, hfound, hok]
    rw [getWorker]
    simp only [List.map_append, List.map_cons, List.map_nil, beq_self_eq_true, if_pos]
    have hmapfix : ((removeWorker st workerId).workers).map
        (fun x => if x.id == freshId then { x with restartCount := w.restartCount + 1 } else x)
        = (removeWorker st workerId).workers := by
      have hfix : ∀ x ∈ (removeWorker st workerId).workers,
          (if x.id == freshId then { x with restartCount := w.restartCount + 1 } else x) = x := by
        intro x hx
        simp only [removeWorker, List.mem_filter] at hx
        have hne : (x.id == freshId) = false := by
          rw [beq_eq_false_iff_ne]
          exact hfresh x hx.1
        simp [hne]
      rw [List.map_congr_left hfix, List.map_id']
    rw [hmapfix]
    rw [List.find?_append]
    have hfind_none : (removeWorker st workerId).workers.find?
        (fun x => x.id == freshId) = none := by
      apply List.find?_eq_none.mpr
      intro x hx hbeq
      simp only [removeWorker, List.mem_filter] at hx
      rw [beq_iff_eq] at hbeq
      exact hfresh x hx.1 hbeq
    rw [hfind_none]
    simp [restartConfig]
  · intro st2
    exact restartWorker_single_attempt st2 workerId freshId now cwd
  · intro st2 w2 e stE hg hsp
    simp only [restartWorker, hg, hsp]

/-- Test fixture: a zero-capacity manager state holding one worker, so
that any respawn fails on the capacity check. -/
def zeroCapState : ManagerState :=
  { workers := [sampleWorker "w1" "alpha" .ready 1 0 .healthy]
    maxWorkers := 0
    defaultTeamName := "default"
    autoRestart := true
    restartHistory := [] }

/-- Witness for C9: a concrete restart of a count-1 worker emits the
restart event with the fresh id and count 2, registers the preserved
worker under the fresh id, and a concrete failing respawn (zero
capacity) yields no events. -/
theorem C9_restart_continuity_witness :
    (restartWorker (sampleState [sampleWorker "w1" "alpha" .ready 1 0 .healthy])
        "w1" "w9" 5 "/").2 = [ManagerEvent.restart "w9" "alpha" 2] ∧
    ("w9" : String) ≠ "w1" ∧
    getWorker (restartWorker (sampleState [sampleWorker "w1" "alpha" .ready 1 0 .healthy])
        "w1" "w9" 5 "/").1 "w9" = some
      { id := "w9", handle := "alpha", teamName := "team",
        sessionId := some "sess-1", workingDir := "/repo",
        state := .starting, recentOutput := [], spawnedAt := 5,
        currentTaskId := none, lastHeartbeat := 5,
        restartCount := 2, health := .healthy } ∧
    restartWorker zeroCapState "w1" "w9" 5 "/" =
      ({ workers := [], maxWorkers := 0, defaultTeamName := "default",
         autoRestart := true, restartHistory := [5] }, []) := by
  have h := C9_restart_continuity (sampleState [sampleWorker "w1" "alpha" .ready 1 0 .healthy])
    "w1" "w9" 5 "/" (sampleWorker "w1" "alpha" .ready 1 0 .healthy)
    (by decide) (by decide) (by decide) (by decide)
  refine ⟨h.1, h.2.1, h.2.2.1, ?_⟩
  exact h.2.2.2.2 zeroCapState (sampleWorker "w1" "alpha" .ready 1 0 .healthy)
    "Maximum workers (0) reached"
    { workers := [], maxWorkers := 0, defaultTeamName := "default",
      autoRestart := true, restartHistory := [5] }
    (by decide) (by rfl)

theorem splitOnNl_ne_nil (l : List Char) : splitOnNl l ≠ [] := by
  cases l with
  | nil => simp [splitOnNl]
  | cons c cs =>
    by_cases hc : c = '\n'
    · simp [splitOnNl, hc]
    · simp only [splitOnNl, if_neg hc]
      cases h : splitOnNl cs <;> simp

theorem getLastD_append_cons (l : List (List Char)) (x : List Char) (t : List (List Char)) :
    ∀ d, (l ++ x :: t).getLastD d = (x :: t).getLastD d := by
  induction l with
  | nil => intro d; rfl
  | cons a as ih =>
    intro d
    rw [List.cons_append, List.getLastD_cons, ih]
    rw [List.getLastD_cons, List.getLastD_cons]

theorem splitOnNl_getLastD_no_nl (l : List Char) : '\n' ∉ (splitOnNl l).getLastD [] := by
  induction l with
  | nil => simp [splitOnNl]
  | cons c cs ih =>
    by_cases hc : c = '\n'
    · subst hc
      rw [show splitOnNl ('\n' :: cs) = [] :: splitOnNl cs from by simp [splitOnNl]]
      rw [List.getLastD_cons]
      cases h : splitOnNl cs with
      | nil => exact absurd h (splitOnNl_ne_nil cs)
      | cons hd tl =>
        rw [h] at ih
        simpa using ih
    · cases h : splitOnNl cs with
      | nil => exact absurd h (splitOnNl_ne_nil cs)
      | cons hd tl =>
        rw [show splitOnNl (c :: cs) = (c :: hd) :: tl from by simp [splitOnNl, hc, h]]
        rw [h] at ih
        cases tl with
        | nil =>
          simp only [List.getLastD_cons, List.getLastD_nil] at ih ⊢
          simp only [List.mem_cons, not_or]
          exact ⟨fun he => hc he.symm, ih⟩
        | cons y ys =>
          rw [List.getLastD_cons] at ih ⊢
          rw [show (y :: ys).getLastD (c :: hd) = (y :: ys).getLastD hd from by
            rw [List.getLastD_cons, List.getLastD_cons]]
          exact ih

theorem splitOnNl_of_not_mem (l : List Char) (h : '\n' ∉ l) : splitOnNl l = [l] := by
  induction l with
  | nil => simp [splitOnNl]
  | cons c cs ih =>
    simp only [List.mem_cons, not_or] at h
    have hc : c ≠ '\n' := fun he => h.1 he.symm
    rw [show splitOnNl (c :: cs) = (c :: (splitOnNl cs).headD []) :: (splitOnNl cs).tail from by
      cases hs : splitOnNl cs with
      | nil => exact absurd hs (splitOnNl_ne_nil cs)
      | cons hd tl => simp [splitOnNl, hc, hs]]
    rw [ih h.2]
    rfl

theorem splitOnNl_append (a b : List Char) :
    splitOnNl (a ++ b) =
      (splitOnNl a).dropLast ++
        ((splitOnNl a).getLastD [] ++ (splitOnNl b).headD []) :: (splitOnNl b).tail := by
  induction a with
  | nil =>
    cases hb : splitOnNl b with
    | nil => exact absurd hb (splitOnNl_ne_nil b)
    | cons hd tl => simp [splitOnNl, hb]
  | cons c cs ih =>
    by_cases hc : c = '\n'
    · subst hc
      cases ha : splitOnNl cs with
      | nil => exact absurd ha (splitOnNl_ne_nil cs)
      | cons hd tl =>
        simp only [List.cons_append]
        rw [show splitOnNl ('\n' :: (cs ++ b)) = [] :: splitOnNl (cs ++ b) from by
          simp [splitOnNl]]
        rw [ih]
        rw [show splitOnNl ('\n' :: cs) = [] :: splitOnNl cs from by simp [splitOnNl]]
        rw [ha]
        rw [List.dropLast_cons_of_ne_nil (by simp : hd :: tl ≠ [])]
        simp only [List.getLastD_cons, List.cons_append]
    · cases ha : splitOnNl cs with
      | nil => exact absurd ha (splitOnNl_ne_nil cs)
      | cons hd tl =>
        cases hab : splitOnNl (cs ++ b) with
        | nil => exact absurd hab (splitOnNl_ne_nil _)
        | cons hd2 tl2 =>
          have hL : splitOnNl (c :: (cs ++ b)) = (c :: hd2) :: tl2 := by
            simp [splitOnNl, hc, hab]
          have hR : splitOnNl (c :: cs) = (c :: hd) :: tl := by
            simp [splitOnNl, hc, ha]
          simp only [List.cons_append]
          rw [hL, hR]
          rw [ih, ha] at hab
          cases tl with
          | nil =>
            simp only [List.dropLast_single, List.nil_append, List.getLastD_cons,
              List.getLastD_nil] at hab ⊢
            injection hab with h1 h2
            rw [← h1, ← h2]
            simp
          | cons y ys =>
            simp only [List.dropLast_cons_of_ne_nil (by simp : y :: ys ≠ []),
              List.getLastD_cons, List.cons_append] at hab ⊢
            injection hab with h1 h2
            rw [← h1, ← h2]

theorem stdoutDataRun_foldl (chunks : List (List Char)) :
    ∀ (out : List (List Char)) (buf : List Char), '\n' ∉ buf →
      chunks.foldl
        (fun acc data =>
          let r := stdoutDataStep acc.2 data
          (acc.1 ++ r.1, r.2)) (out, buf)
      = (out ++ (splitOnNl (buf ++ chunks.flatten)).dropLast,
         (splitOnNl (buf ++ chunks.flatten)).getLastD []) := by
  induction chunks with
  | nil =>
    intro out buf hbuf
    simp [splitOnNl_of_not_mem buf hbuf]
  | cons d ds ih =>
    intro out buf hbuf
    simp only [List.foldl_cons]
    show List.foldl
        (fun acc data =>
          let r := stdoutDataStep acc.2 data
          (acc.1 ++ r.1, r.2))
        (out ++ (splitOnNl (buf ++ d)).dropLast, (splitOnNl (buf ++ d)).getLastD []) ds
      = _
    rw [ih (out ++ (splitOnNl (buf ++ d)).dropLast) ((splitOnNl (buf ++ d)).getLastD [])
        (splitOnNl_getLastD_no_nl _)]
    have hkey : splitOnNl (buf ++ (d :: ds).flatten)
        = (splitOnNl (buf ++ d)).dropLast ++
          splitOnNl ((splitOnNl (buf ++ d)).getLastD [] ++ ds.flatten) := by
      conv_lhs => rw [List.flatten_cons, ← List.append_assoc,
        splitOnNl_append (buf ++ d) ds.flatten]
      conv_rhs => rw [splitOnNl_append ((splitOnNl (buf ++ d)).getLastD []) ds.flatten,
        splitOnNl_of_not_mem _ (splitOnNl_getLastD_no_nl _)]
      simp
    rw [Prod.mk.injEq]
    constructor
    · rw [hkey]
      rw [List.dropLast_append_of_ne_nil _ (splitOnNl_ne_nil _)]
      rw [List.append_assoc]
    · rw [hkey]
      cases hs : splitOnNl ((splitOnNl (buf ++ d)).getLastD [] ++ ds.flatten) with
      | nil => exact absurd hs (splitOnNl_ne_nil _)
      | cons x t =>
        rw [getLastD_append_cons]

/-- Counterexample for C1: a single chunk consisting of one newline
contains one newline-terminated (empty) line, yet zero lines are
forwarded to the line parser, because the stdout data handler drops
lines whose trim is empty before calling parseNdjsonLine. -/
theorem C1_stream_framer_counterexample :
    linesToParser [['\n']] = [] ∧
    ((splitOnNl (List.flatten [['\n']])).dropLast).length = 1 ∧
    ¬ (linesToParser [['\n']]).length
        = ((splitOnNl (List.flatten [['\n']])).dropLast).length := by decide

/-- C1 amended: over any chunk sequence the stdout data handler frames
exactly the newline-terminated lines of the concatenation, in order,
independent of chunk boundaries (one-byte chunks included), and buffers
the incomplete trailing fragment; of those k framed lines it forwards
to the line parser exactly the ones whose whitespace-trim is non-empty
(so exactly k lines reach the parser precisely when no line is
whitespace-only). -/
theorem C1_stream_framer_amended (chunks : List (List Char)) :
    (stdoutDataRun chunks).1 = (splitOnNl chunks.flatten).dropLast ∧
    (stdoutDataRun chunks).2 = (splitOnNl chunks.flatten).getLastD [] ∧
    linesToParser chunks =
      ((splitOnNl chunks.flatten).dropLast).filter (fun line => !(trimWS line).isEmpty) := by
  have h := stdoutDataRun_foldl chunks [] [] (by simp)
  rw [List.nil_append] at h
  have h1 : stdoutDataRun chunks
      = ((splitOnNl chunks.flatten).dropLast, (splitOnNl chunks.flatten).getLastD []) := by
    rw [stdoutDataRun, h]
    simp
  refine ⟨?_, ?_, ?_⟩
  · rw [h1]
  · rw [h1]
  · rw [linesToParser, h1]
